import Mathlib

/-!
Shallow embedding of `icon-finder-rs` (`src/lib.rs`), the freedesktop.org
icon-theme resolution core, together with proofs of the specification
claims.

Modelling conventions:
* Rust `i16` values are modelled as `Int`; the sentinel `i16::max_value()`
  used by `lookup_icon` is the literal `32767` (`I16_MAX` below).
* The filesystem-existence check `Path::new(p).exists()` is modelled as an
  explicit predicate parameter `fs : String → Bool` threaded through every
  function that probes the filesystem.
* The unused `location : Path` field of the Rust `Theme` struct is omitted:
  it never participates in resolution (and the code itself constructs
  `Theme` values without it).
* Rust `for` loops with early `return` are modelled with `List.findSome?`,
  and the accumulator loop of the closest phase with `List.foldl`.
-/

namespace IconFinder

inductive ThemeDirectoryType where
  | Fixed
  | Scalable
  | Threshold
  deriving DecidableEq

structure ThemeDirectory where
  name : String
  size : Int
  scale : Option Int
  context : Option String
  type : ThemeDirectoryType
  max_size : Option Int
  min_size : Option Int
  threshold : Option Int
  deriving DecidableEq

inductive Theme where
  | mk (name : String) (comment : String) (inherits : List Theme)
      (directories : List ThemeDirectory)

def Theme.name : Theme → String
  | .mk n _ _ _ => n

def Theme.comment : Theme → String
  | .mk _ c _ _ => c

def Theme.inherits : Theme → List Theme
  | .mk _ _ i _ => i

def Theme.directories : Theme → List ThemeDirectory
  | .mk _ _ _ d => d

def BASE_DIRECTORIES : List String :=
  [ "~/.icons", "/usr/share/icons", "/usr/local/share/icons"]

def ALLOWED_EXTENSIONS : List String := [ "png", "svg", "xpm"]

def DEFAULT_THRESHOLD : Int := 2

def DEFAULT_SCALE : Int := 1

def directory_matches_size (theme_directory : ThemeDirectory)
    (icon_size icon_scale : Int) : Bool :=
  if icon_scale ≠ theme_directory.scale.getD DEFAULT_SCALE then
    false
  else
    let min_size := theme_directory.min_size.getD theme_directory.size
    let max_size := theme_directory.max_size.getD theme_directory.size
    let threshold := theme_directory.threshold.getD DEFAULT_THRESHOLD
    match theme_directory.type with
    | .Fixed => decide (theme_directory.size = icon_size)
    | .Scalable => decide (min_size ≤ icon_size) && decide (icon_size ≤ max_size)
    | .Threshold =>
        decide (theme_directory.size - threshold ≤ icon_size) &&
          decide (icon_size ≤ theme_directory.size + threshold)

def directory_size_distance (theme_directory : ThemeDirectory)
    (icon_size icon_scale : Int) : Int :=
  let min_size := theme_directory.min_size.getD theme_directory.size
  let max_size := theme_directory.max_size.getD theme_directory.size
  let threshold := theme_directory.threshold.getD DEFAULT_THRESHOLD
  let theme_directory_scale := theme_directory.scale.getD DEFAULT_SCALE
  match theme_directory.type with
  | .Fixed =>
      |theme_directory.size * theme_directory_scale - icon_size * icon_scale|
  | .Scalable =>
      if icon_size * icon_scale < min_size * theme_directory_scale then
        min_size * theme_directory_scale - icon_size * icon_scale
      else if icon_size * icon_scale > max_size * theme_directory_scale then
        icon_size * icon_scale - max_size * theme_directory_scale
      else
        0
  | .Threshold =>
      if icon_size * icon_scale <
          (theme_directory.size - threshold) * theme_directory_scale then
        theme_directory.size * theme_directory_scale - icon_size * icon_scale
      else if icon_size * icon_scale >
          (theme_directory.size + threshold) * theme_directory_scale then
        icon_size * icon_scale - theme_directory.size * theme_directory_scale
      else
        0

/-- The `format!` string of `lookup_icon`:
`{directory}/{theme_name}/{subdir}/{icon_name}.{extension}`. -/
def mkThemedPath (directory theme_name subdir icon_name extension : String) :
    String :=
  directory ++ "/" ++ theme_name ++ "/" ++ subdir ++ "/" ++ icon_name ++ "." ++
    extension

/-- The (subdirectory, base directory, extension) triples visited by the
nested loops of `lookup_icon`, in loop order: directories outer, then base
roots, then extensions. -/
def candidateTriples (theme : Theme) : List (ThemeDirectory × String × String) :=
  theme.directories.flatMap fun subdir =>
    BASE_DIRECTORIES.flatMap fun directory =>
      ALLOWED_EXTENSIONS.map fun extension => (subdir, directory, extension)

/-- The candidate path built for one loop triple. -/
def candidatePath (icon_name : String) (theme : Theme)
    (c : ThemeDirectory × String × String) : String :=
  mkThemedPath c.2.1 theme.name c.1.name icon_name c.2.2

def I16_MAX : Int := 32767

/-- Body of the exact-phase loop of `lookup_icon`: the size check, then the
path construction and existence test, with early return on a hit. -/
def exactProbe (icon_name : String) (size scale : Int) (theme : Theme)
    (fs : String → Bool) (c : ThemeDirectory × String × String) :
    Option String :=
  if directory_matches_size c.1 size scale then
    let file_path := candidatePath icon_name theme c
    if fs file_path then some file_path else none
  else
    none

/-- Body of the closest-phase loop of `lookup_icon`: keep the accumulator
`(minimal_size, closest_filename)`, updating it whenever the candidate path
exists and its directory distance strictly improves on `minimal_size`. -/
def closestAccStep (icon_name : String) (size scale : Int) (theme : Theme)
    (fs : String → Bool) (acc : Int × String)
    (c : ThemeDirectory × String × String) : Int × String :=
  let file_path := candidatePath icon_name theme c
  let d := directory_size_distance c.1 size scale
  if fs file_path && decide (d < acc.1) then (d, file_path) else acc

def lookup_icon (icon_name : String) (size scale : Int) (theme : Theme)
    (fs : String → Bool) : Option String :=
  match (candidateTriples theme).findSome?
      (exactProbe icon_name size scale theme fs) with
  | some file_path => some file_path
  | none =>
    let result := (candidateTriples theme).foldl
      (closestAccStep icon_name size scale theme fs) (I16_MAX, "")
    if result.1 < I16_MAX then some result.2 else none

def lookup_fallback_icon (icon_name : String) (fs : String → Bool) :
    Option String :=
  (BASE_DIRECTORIES.flatMap fun directory =>
      ALLOWED_EXTENSIONS.map fun extension => (directory, extension)).findSome?
    fun c =>
      let file_path := c.1 ++ "/" ++ icon_name ++ "." ++ c.2
      if fs file_path then some file_path else none

mutual

def find_icon_helper (icon : String) (size scale : Int) (fs : String → Bool) :
    Theme → Option String
  | .mk n c inh dirs =>
    match lookup_icon icon size scale (.mk n c inh dirs) fs with
    | some f => some f
    | none => findIconHelperList icon size scale fs inh

/-- The `for parent in &theme.inherits` loop of `find_icon_helper`. -/
def findIconHelperList (icon : String) (size scale : Int) (fs : String → Bool) :
    List Theme → Option String
  | [] => none
  | t :: ts =>
    match find_icon_helper icon size scale fs t with
    | some f => some f
    | none => findIconHelperList icon size scale fs ts

end

mutual

def find_best_icon_helper (icon_list : List String) (size scale : Int)
    (fs : String → Bool) : Theme → Option String
  | .mk n c inh dirs =>
    match icon_list.findSome?
        (fun icon => lookup_icon icon size scale (.mk n c inh dirs) fs) with
    | some f => some f
    | none => findBestIconHelperList icon_list size scale fs inh

/-- The `for parent in &theme.inherits` loop of `find_best_icon_helper`. -/
def findBestIconHelperList (icon_list : List String) (size scale : Int)
    (fs : String → Bool) : List Theme → Option String
  | [] => none
  | t :: ts =>
    match find_best_icon_helper icon_list size scale fs t with
    | some f => some f
    | none => findBestIconHelperList icon_list size scale fs ts

end

def find_icon (icon : String) (size scale : Int) (user_selected_theme : Theme)
    (fs : String → Bool) : Option String :=
  let fallback_theme : Theme := .mk "hicolor" "Default icon theme" [] []
  match find_icon_helper icon size scale fs user_selected_theme with
  | some i => some i
  | none =>
    match find_icon_helper icon size scale fs fallback_theme with
    | some i => some i
    | none => none

def find_best_icon (icon_list : List String) (size scale : Int)
    (user_selected_theme : Theme) (fs : String → Bool) : Option String :=
  let fallback_theme : Theme := .mk "hicolor" "Default icon" [] []
  match find_best_icon_helper icon_list size scale fs user_selected_theme with
  | some filename => some filename
  | none =>
    match find_best_icon_helper icon_list size scale fs fallback_theme with
    | some filename => some filename
    | none => icon_list.findSome? fun icon => lookup_fallback_icon icon fs

/-! ### Specification-side description of the Directory Prober (§4.2)

`lookupIconSpec` restates the two-phase policy in the spec's own terms
(first match wins in the exact phase; first minimum-distance existing
candidate in the closest phase), amended by the `i16::MAX` sentinel that the
code's closest phase actually uses. -/

def lookupIconSpec (icon_name : String) (size scale : Int) (theme : Theme)
    (fs : String → Bool) : Option String :=
  match (candidateTriples theme).find? (fun c =>
      directory_matches_size c.1 size scale &&
        fs (candidatePath icon_name theme c)) with
  | some c => some (candidatePath icon_name theme c)
  | none =>
    let existing := (candidateTriples theme).filter fun c =>
      fs (candidatePath icon_name theme c)
    let bestDist := (existing.map fun c =>
      directory_size_distance c.1 size scale).foldl min I16_MAX
    if bestDist < I16_MAX then
      (existing.find? fun c =>
          directory_size_distance c.1 size scale == bestDist).map
        (candidatePath icon_name theme)
    else
      none

lemma findSome?_if {α : Type u} {β : Type v} (p : α → Bool) (g : α → β) :
    ∀ l : List α,
      (l.findSome? fun a => if p a then some (g a) else none) =
        (l.find? p).map g
  | [] => rfl
  | a :: l => by
    cases h : p a with
    | true => simp [List.findSome?_cons, List.find?_cons, h]
    | false => simp [List.findSome?_cons, List.find?_cons, h, findSome?_if p g l]

lemma exactProbe_eq (icon_name : String) (size scale : Int) (theme : Theme)
    (fs : String → Bool) (c : ThemeDirectory × String × String) :
    exactProbe icon_name size scale theme fs c =
      if directory_matches_size c.1 size scale &&
          fs (candidatePath icon_name theme c) then
        some (candidatePath icon_name theme c)
      else
        none := by
  unfold exactProbe
  by_cases h1 : directory_matches_size c.1 size scale <;>
    by_cases h2 : fs (candidatePath icon_name theme c) <;> simp [h1, h2]

lemma exact_phase_eq (icon_name : String) (size scale : Int) (theme : Theme)
    (fs : String → Bool) :
    (candidateTriples theme).findSome?
        (exactProbe icon_name size scale theme fs) =
      ((candidateTriples theme).find? fun c =>
          directory_matches_size c.1 size scale &&
            fs (candidatePath icon_name theme c)).map
        (candidatePath icon_name theme) := by
  rw [show exactProbe icon_name size scale theme fs = fun c =>
      if directory_matches_size c.1 size scale &&
          fs (candidatePath icon_name theme c) then
        some (candidatePath icon_name theme c)
      else none from funext (exactProbe_eq icon_name size scale theme fs)]
  exact findSome?_if _ _ _

/-- Invariant of the closest-phase fold of `lookup_icon`: the accumulator's
first component tracks the running minimum distance over the existing
candidates, and its second component is the path of the first candidate
achieving that minimum (if it improved on the initial value). -/
lemma closest_foldl (icon_name : String) (size scale : Int) (theme : Theme)
    (fs : String → Bool) :
    ∀ (l : List (ThemeDirectory × String × String)) (m0 : Int) (c0 : String),
      ∃ m c,
        l.foldl (closestAccStep icon_name size scale theme fs) (m0, c0) =
            (m, c) ∧
        m = ((l.filter fun x => fs (candidatePath icon_name theme x)).map
            fun x => directory_size_distance x.1 size scale).foldl min m0 ∧
        m ≤ m0 ∧
        (m < m0 →
          ((l.filter fun x => fs (candidatePath icon_name theme x)).find?
              fun x => directory_size_distance x.1 size scale == m).map
            (candidatePath icon_name theme) = some c) ∧
        (m0 ≤ m → c = c0)
  | [], m0, c0 =>
    ⟨m0, c0, rfl, rfl, le_refl m0,
      fun h => absurd h (lt_irrefl m0), fun _ => rfl⟩
  | a :: l, m0, c0 => by
    by_cases hq : fs (candidatePath icon_name theme a)
    · by_cases hlt : directory_size_distance a.1 size scale < m0
      · have hstep : closestAccStep icon_name size scale theme fs (m0, c0) a =
            (directory_size_distance a.1 size scale,
              candidatePath icon_name theme a) := by
          simp [closestAccStep, hq, hlt]
        obtain ⟨m, c, hfold, h1, h2, h3, h4⟩ :=
          closest_foldl icon_name size scale theme fs l
            (directory_size_distance a.1 size scale)
            (candidatePath icon_name theme a)
        refine ⟨m, c, by rw [List.foldl_cons, hstep, hfold], ?_, ?_, ?_, ?_⟩
        · rw [List.filter_cons_of_pos (p := fun x => fs (candidatePath icon_name theme x)) hq, List.map_cons, List.foldl_cons,
            min_eq_right hlt.le]
          exact h1
        · exact h2.trans hlt.le
        · intro _
          rw [List.filter_cons_of_pos (p := fun x => fs (candidatePath icon_name theme x)) hq]
          rcases h2.lt_or_eq with hmlt | hmeq
          · rw [List.find?_cons_of_neg]
            · exact h3 hmlt
            · simp only [beq_iff_eq]
              exact (ne_of_gt hmlt)
          · rw [List.find?_cons_of_pos]
            · rw [Option.map_some', h4 (le_of_eq hmeq.symm)]
            · simp only [beq_iff_eq]
              exact hmeq.symm
        · intro hge
          exact absurd (lt_of_le_of_lt h2 hlt) (not_lt.mpr hge)
      · have hstep : closestAccStep icon_name size scale theme fs (m0, c0) a =
            (m0, c0) := by
          simp [closestAccStep, hq, hlt]
        obtain ⟨m, c, hfold, h1, h2, h3, h4⟩ :=
          closest_foldl icon_name size scale theme fs l m0 c0
        refine ⟨m, c, by rw [List.foldl_cons, hstep, hfold], ?_, h2, ?_, h4⟩
        · rw [List.filter_cons_of_pos (p := fun x => fs (candidatePath icon_name theme x)) hq, List.map_cons, List.foldl_cons,
            min_eq_left (le_of_not_lt hlt)]
          exact h1
        · intro hm
          rw [List.filter_cons_of_pos (p := fun x => fs (candidatePath icon_name theme x)) hq, List.find?_cons_of_neg]
          · exact h3 hm
          · simp only [beq_iff_eq]
            exact ne_of_gt (lt_of_lt_of_le hm (le_of_not_lt hlt))
    · have hstep : closestAccStep icon_name size scale theme fs (m0, c0) a =
          (m0, c0) := by
        simp [closestAccStep, hq]
      obtain ⟨m, c, hfold, h1, h2, h3, h4⟩ :=
        closest_foldl icon_name size scale theme fs l m0 c0
      refine ⟨m, c, by rw [List.foldl_cons, hstep, hfold], ?_, h2, ?_, h4⟩
      · rw [List.filter_cons_of_neg (p := fun x => fs (candidatePath icon_name theme x)) (by simpa using hq)]
        exact h1
      · intro hm
        rw [List.filter_cons_of_neg (p := fun x => fs (candidatePath icon_name theme x)) (by simpa using hq)]
        exact h3 hm

/-- C1 (amended): `lookup_icon` is two-phase. If some (directory, root,
extension) triple — directories outer, then roots, then extensions — yields
an existing candidate path whose directory satisfies `Matches`, the first
such path is returned; otherwise the existing candidate with the minimum
`Distance` is returned (ties broken by the first minimum in iteration
order), provided that minimum is below the `i16::MAX` sentinel 32767; it
returns absent iff no candidate path exists with distance below the
sentinel. -/
theorem lookup_icon_two_phase (icon_name : String) (size scale : Int)
    (theme : Theme) (fs : String → Bool) :
    lookup_icon icon_name size scale theme fs =
      lookupIconSpec icon_name size scale theme fs := by
  unfold lookup_icon lookupIconSpec
  rw [exact_phase_eq]
  cases hf : (candidateTriples theme).find? fun c =>
      directory_matches_size c.1 size scale &&
        fs (candidatePath icon_name theme c) with
  | some c => simp
  | none =>
    simp only [Option.map_none']
    obtain ⟨m, c, hfold, h1, h2, h3, h4⟩ :=
      closest_foldl icon_name size scale theme fs (candidateTriples theme)
        I16_MAX ""
    rw [hfold, ← h1]
    by_cases hm : m < I16_MAX
    · rw [if_pos hm, if_pos hm]
      exact (h3 hm).symm
    · rw [if_neg hm, if_neg hm]

/-- Data refuting the unamended C1: a single Fixed directory of size 32767
(`i16::MAX`), an existing candidate at distance exactly 32767. -/
def sentinelDir : ThemeDirectory :=
  ⟨"d", 32767, none, none, .Fixed, none, none, none⟩

def sentinelTheme : Theme := .mk "T" "" [] [sentinelDir]

def sentinelFs : String → Bool := fun p => p == "~/.icons/T/d/foo.png"

/-- C1, counterexample to the claim as stated: requesting icon "foo" at
size 0, scale 1 from a theme whose only directory is Fixed at size 32767,
with exactly one existing candidate path, yields `none` although a
candidate path exists — the existing candidate's distance equals the
`i16::MAX` sentinel, so the closest phase never selects it. -/
theorem lookup_icon_sentinel_counterexample :
    lookup_icon "foo" 0 1 sentinelTheme sentinelFs = none ∧
    (candidateTriples sentinelTheme).any
      (fun c => sentinelFs (candidatePath "foo" sentinelTheme c)) = true :=
  ⟨rfl, rfl⟩

/-! ### Size Matcher claims (C2, C3, C6, C7) -/

/-- C2 (confirmed): `directory_matches_size` is false whenever the requested
scale differs from the directory's effective scale (default 1), regardless
of type; otherwise a Fixed directory matches iff `directory.size == size`,
a Scalable directory matches iff `effective_min ≤ size ≤ effective_max`
(min/max defaulting to `size`), and a Threshold directory matches iff
`directory.size - threshold ≤ size ≤ directory.size + threshold`
(threshold defaulting to 2). -/
theorem directory_matches_size_spec (td : ThemeDirectory) (size scale : Int) :
    directory_matches_size td size scale = true ↔
      (scale = td.scale.getD 1 ∧
        match td.type with
        | .Fixed => td.size = size
        | .Scalable =>
            td.min_size.getD td.size ≤ size ∧ size ≤ td.max_size.getD td.size
        | .Threshold =>
            td.size - td.threshold.getD 2 ≤ size ∧
              size ≤ td.size + td.threshold.getD 2) := by
  simp only [directory_matches_size, DEFAULT_SCALE, DEFAULT_THRESHOLD]
  by_cases h : scale = td.scale.getD 1
  · simp only [h, ne_eq, not_true_eq_false, if_false, true_and]
    cases ht : td.type <;> simp [ht]
  · simp only [ne_eq, h, not_false_eq_true, if_true, false_and, iff_false]
    exact Bool.false_ne_true

/-- C7 (confirmed): for a Fixed directory, `directory_size_distance` is the
absolute scaled size difference, and in particular non-negative. -/
theorem directory_size_distance_fixed_spec (n : String) (sz : Int)
    (sc : Option Int) (cx : Option String) (mx mn th : Option Int)
    (icon_size icon_scale : Int) :
    directory_size_distance ⟨n, sz, sc, cx, .Fixed, mx, mn, th⟩
        icon_size icon_scale =
      |sz * sc.getD 1 - icon_size * icon_scale| ∧
    0 ≤ directory_size_distance ⟨n, sz, sc, cx, .Fixed, mx, mn, th⟩
        icon_size icon_scale :=
  ⟨rfl, abs_nonneg _⟩

/-- C6 (confirmed): for a Scalable directory (with spec §3 well-formedness:
non-negative effective scale and `effective_min ≤ effective_max`),
`directory_size_distance` is 0 inside the scaled range
`[effective_min * directory_scale, effective_max * directory_scale]`,
and outside it equals the scaled gap to the nearer bound. -/
theorem directory_size_distance_scalable_spec (n : String) (sz : Int)
    (sc : Option Int) (cx : Option String) (mx mn th : Option Int)
    (icon_size icon_scale : Int) (h1 : (0 : Int) ≤ sc.getD 1)
    (h2 : mn.getD sz ≤ mx.getD sz) :
    ((mn.getD sz * sc.getD 1 ≤ icon_size * icon_scale ∧
        icon_size * icon_scale ≤ mx.getD sz * sc.getD 1) →
      directory_size_distance ⟨n, sz, sc, cx, .Scalable, mx, mn, th⟩
        icon_size icon_scale = 0) ∧
    (icon_size * icon_scale < mn.getD sz * sc.getD 1 →
      directory_size_distance ⟨n, sz, sc, cx, .Scalable, mx, mn, th⟩
        icon_size icon_scale =
          mn.getD sz * sc.getD 1 - icon_size * icon_scale) ∧
    (mx.getD sz * sc.getD 1 < icon_size * icon_scale →
      directory_size_distance ⟨n, sz, sc, cx, .Scalable, mx, mn, th⟩
        icon_size icon_scale =
          icon_size * icon_scale - mx.getD sz * sc.getD 1) := by
  have key : mn.getD sz * sc.getD 1 ≤ mx.getD sz * sc.getD 1 :=
    mul_le_mul_of_nonneg_right h2 h1
  simp only [directory_size_distance, DEFAULT_SCALE]
  split_ifs with ha hb
  · exact ⟨fun h => absurd ha (not_lt.mpr h.1),
      fun _ => rfl, fun h => absurd ha (not_lt.mpr (by linarith))⟩
  · exact ⟨fun h => absurd hb (not_lt.mpr h.2),
      fun h => absurd h ha, fun _ => rfl⟩
  · exact ⟨fun _ => rfl, fun h => absurd h ha, fun h => absurd h hb⟩

/-- C6, witness: a Scalable 512 directory with min 256, max 1024 at
requested size 128, scale 1 sits below the range; distance is 256 - 128. -/
theorem directory_size_distance_scalable_spec_witness :
    directory_size_distance
        ⟨"d", 512, none, none, .Scalable, some 1024, some 256, none⟩ 128 1 =
      (some (256 : Int)).getD 512 * (Option.getD none 1) - 128 * 1 :=
  (directory_size_distance_scalable_spec "d" 512 none none (some 1024)
      (some 256) none 128 1 (by decide) (by decide)).2.1 (by decide)

/-- C3 (confirmed): for a Threshold directory (with spec §3 well-formedness:
non-negative effective threshold and scale), `directory_size_distance` is 0
inside the scaled threshold-widened band
`[(size - threshold) * directory_scale, (size + threshold) * directory_scale]`
and outside it equals the scaled gap to `directory.size` itself,
`|directory.size * directory_scale - size * scale|`, not the gap to the
band edge. -/
theorem directory_size_distance_threshold_spec (n : String) (sz : Int)
    (sc : Option Int) (cx : Option String) (mx mn th : Option Int)
    (icon_size icon_scale : Int) (hth : (0 : Int) ≤ th.getD 2)
    (hsc : (0 : Int) ≤ sc.getD 1) :
    (((sz - th.getD 2) * sc.getD 1 ≤ icon_size * icon_scale ∧
        icon_size * icon_scale ≤ (sz + th.getD 2) * sc.getD 1) →
      directory_size_distance ⟨n, sz, sc, cx, .Threshold, mx, mn, th⟩
        icon_size icon_scale = 0) ∧
    (¬((sz - th.getD 2) * sc.getD 1 ≤ icon_size * icon_scale ∧
        icon_size * icon_scale ≤ (sz + th.getD 2) * sc.getD 1) →
      directory_size_distance ⟨n, sz, sc, cx, .Threshold, mx, mn, th⟩
        icon_size icon_scale = |sz * sc.getD 1 - icon_size * icon_scale|) := by
  have hlo : (sz - th.getD 2) * sc.getD 1 ≤ sz * sc.getD 1 :=
    mul_le_mul_of_nonneg_right (by linarith) hsc
  have hhi : sz * sc.getD 1 ≤ (sz + th.getD 2) * sc.getD 1 :=
    mul_le_mul_of_nonneg_right (by linarith) hsc
  simp only [directory_size_distance, DEFAULT_SCALE, DEFAULT_THRESHOLD]
  split_ifs with ha hb
  · refine ⟨fun h => absurd ha (not_lt.mpr h.1), fun _ => ?_⟩
    rw [abs_of_nonneg (by linarith)]
  · refine ⟨fun h => absurd hb (not_lt.mpr h.2), fun _ => ?_⟩
    rw [abs_of_nonpos (by linarith)]
    ring
  · exact ⟨fun _ => rfl,
      fun h => absurd ⟨not_lt.mp ha, not_lt.mp hb⟩ h⟩

/-- C3, witness: a Threshold 512 directory with default threshold 2 at
requested size 600, scale 1 lies outside the band [510, 514]; the distance
is the gap to 512 itself. -/
theorem directory_size_distance_threshold_spec_witness :
    directory_size_distance
        ⟨"d", 512, none, none, .Threshold, none, none, none⟩ 600 1 =
      |(512 : Int) * (Option.getD none 1) - 600 * 1| :=
  (directory_size_distance_threshold_spec "d" 512 none none none none none
      600 1 (by decide) (by decide)).2 (by decide)

/-! ### Theme Resolver claims (C4, C5, C8) -/

mutual

/-- Depth-first pre-order listing of a theme tree: the theme itself first,
then its parents in declared order, each recursively. -/
def preorderTheme : Theme → List Theme
  | .mk n c inh dirs => .mk n c inh dirs :: preorderThemeList inh

def preorderThemeList : List Theme → List Theme
  | [] => []
  | t :: ts => preorderTheme t ++ preorderThemeList ts

end

mutual

theorem find_icon_helper_eq_preorder (icon : String) (size scale : Int)
    (fs : String → Bool) : ∀ t : Theme,
    find_icon_helper icon size scale fs t =
      (preorderTheme t).findSome? fun th => lookup_icon icon size scale th fs
  | .mk n c inh dirs => by
    cases hl : lookup_icon icon size scale (.mk n c inh dirs) fs with
    | some f =>
      simp [find_icon_helper, preorderTheme, List.findSome?_cons, hl]
    | none =>
      simp [find_icon_helper, preorderTheme, List.findSome?_cons, hl,
        findIconHelperList_eq_preorder icon size scale fs inh]

theorem findIconHelperList_eq_preorder (icon : String) (size scale : Int)
    (fs : String → Bool) : ∀ ts : List Theme,
    findIconHelperList icon size scale fs ts =
      (preorderThemeList ts).findSome? fun th => lookup_icon icon size scale th fs
  | [] => rfl
  | t :: ts => by
    rw [show preorderThemeList (t :: ts) =
        preorderTheme t ++ preorderThemeList ts from rfl,
      List.findSome?_append, ← find_icon_helper_eq_preorder icon size scale fs t,
      ← findIconHelperList_eq_preorder icon size scale fs ts]
    cases h : find_icon_helper icon size scale fs t <;>
      simp [findIconHelperList, h, Option.or]

end

mutual

theorem find_best_icon_helper_eq_preorder (icon_list : List String)
    (size scale : Int) (fs : String → Bool) : ∀ t : Theme,
    find_best_icon_helper icon_list size scale fs t =
      (preorderTheme t).findSome? fun th =>
        icon_list.findSome? fun icon => lookup_icon icon size scale th fs
  | .mk n c inh dirs => by
    cases hl : icon_list.findSome?
        (fun icon => lookup_icon icon size scale (.mk n c inh dirs) fs) with
    | some f =>
      simp [find_best_icon_helper, preorderTheme, List.findSome?_cons, hl]
    | none =>
      simp [find_best_icon_helper, preorderTheme, List.findSome?_cons, hl,
        findBestIconHelperList_eq_preorder icon_list size scale fs inh]

theorem findBestIconHelperList_eq_preorder (icon_list : List String)
    (size scale : Int) (fs : String → Bool) : ∀ ts : List Theme,
    findBestIconHelperList icon_list size scale fs ts =
      (preorderThemeList ts).findSome? fun th =>
        icon_list.findSome? fun icon => lookup_icon icon size scale th fs
  | [] => rfl
  | t :: ts => by
    rw [show preorderThemeList (t :: ts) =
        preorderTheme t ++ preorderThemeList ts from rfl,
      List.findSome?_append,
      ← find_best_icon_helper_eq_preorder icon_list size scale fs t,
      ← findBestIconHelperList_eq_preorder icon_list size scale fs ts]
    cases h : find_best_icon_helper icon_list size scale fs t <;>
      simp [findBestIconHelperList, h, Option.or]

end

/-- C4 (confirmed): `find_icon_helper` is a depth-first pre-order traversal
of the theme tree — the theme itself first, then its parents in declared
order, each recursively — returning the result of the first theme in that
order whose Directory Prober (`lookup_icon`) yields a path, and absent if
no theme in the tree yields one. -/
theorem find_icon_helper_preorder_spec (icon : String) (size scale : Int)
    (fs : String → Bool) (theme : Theme) :
    find_icon_helper icon size scale fs theme =
      (preorderTheme theme).findSome? fun th =>
        lookup_icon icon size scale th fs :=
  find_icon_helper_eq_preorder icon size scale fs theme

/-- C5 (confirmed): `find_best_icon` tries every candidate name in list
order at each theme node (via `lookup_icon`) before descending to that
node's parents; only after this fails on both the given theme's tree and
the built-in default theme does it probe the unthemed fallback for each
name in list order, returning the first hit or absent. -/
theorem find_best_icon_name_preference_spec (icon_list : List String)
    (size scale : Int) (theme : Theme) (fs : String → Bool) :
    find_best_icon icon_list size scale theme fs =
      match (preorderTheme theme).findSome? (fun th =>
          icon_list.findSome? fun icon => lookup_icon icon size scale th fs) with
      | some f => some f
      | none =>
        match (preorderTheme (.mk "hicolor" "Default icon" [] [])).findSome?
            (fun th => icon_list.findSome? fun icon =>
              lookup_icon icon size scale th fs) with
        | some f => some f
        | none => icon_list.findSome? fun icon => lookup_fallback_icon icon fs := by
  simp only [find_best_icon]
  rw [find_best_icon_helper_eq_preorder, find_best_icon_helper_eq_preorder]

lemma lookup_icon_no_directories (icon : String) (size scale : Int)
    (n c : String) (inh : List Theme) (fs : String → Bool) :
    lookup_icon icon size scale (.mk n c inh []) fs = none := rfl

/-- C8 (confirmed): the built-in default theme of `find_icon` — name
"hicolor", no directories, no parents — always resolves to absent, so
`find_icon` coincides with resolving against the given theme alone
(`find_icon_helper`). -/
theorem find_icon_default_theme_spec (icon : String) (size scale : Int)
    (theme : Theme) (fs : String → Bool) :
    find_icon_helper icon size scale fs
        (.mk "hicolor" "Default icon theme" [] []) = none ∧
    find_icon icon size scale theme fs =
      find_icon_helper icon size scale fs theme := by
  have h : find_icon_helper icon size scale fs
      (.mk "hicolor" "Default icon theme" [] []) = none := rfl
  refine ⟨h, ?_⟩
  simp only [find_icon]
  cases hf : find_icon_helper icon size scale fs theme <;> simp [hf, h]

/-! ### Termination claim (C9)

The Rust helpers recurse on the owned `inherits` sub-values with no visited
set or depth bound. To state termination as a theorem, we give step-indexed
variants that consume one unit of fuel per recursive descent (`none` marks
fuel exhaustion) and prove that fuel equal to the tree depth always
suffices, the result agreeing with the directly recursive functions. -/

mutual

def themeDepth : Theme → Nat
  | .mk _ _ inh _ => themeListDepth inh + 1

def themeListDepth : List Theme → Nat
  | [] => 0
  | t :: ts => max (themeDepth t) (themeListDepth ts)

end

mutual

def findIconHelperFuel : Nat → String → Int → Int → (String → Bool) →
    Theme → Option (Option String)
  | 0, _, _, _, _, _ => none
  | fuel + 1, icon, size, scale, fs, .mk n c inh dirs =>
    match lookup_icon icon size scale (.mk n c inh dirs) fs with
    | some f => some (some f)
    | none => findIconHelperListFuel fuel icon size scale fs inh
  termination_by fuel _ _ _ _ _ => (fuel, 0)

def findIconHelperListFuel : Nat → String → Int → Int → (String → Bool) →
    List Theme → Option (Option String)
  | _, _, _, _, _, [] => some none
  | fuel, icon, size, scale, fs, t :: ts =>
    match findIconHelperFuel fuel icon size scale fs t with
    | none => none
    | some (some f) => some (some f)
    | some none => findIconHelperListFuel fuel icon size scale fs ts
  termination_by fuel _ _ _ _ ts => (fuel, ts.length + 1)

end

mutual

def findBestIconHelperFuel : Nat → List String → Int → Int →
    (String → Bool) → Theme → Option (Option String)
  | 0, _, _, _, _, _ => none
  | fuel + 1, icon_list, size, scale, fs, .mk n c inh dirs =>
    match icon_list.findSome?
        (fun icon => lookup_icon icon size scale (.mk n c inh dirs) fs) with
    | some f => some (some f)
    | none => findBestIconHelperListFuel fuel icon_list size scale fs inh
  termination_by fuel _ _ _ _ _ => (fuel, 0)

def findBestIconHelperListFuel : Nat → List String → Int → Int →
    (String → Bool) → List Theme → Option (Option String)
  | _, _, _, _, _, [] => some none
  | fuel, icon_list, size, scale, fs, t :: ts =>
    match findBestIconHelperFuel fuel icon_list size scale fs t with
    | none => none
    | some (some f) => some (some f)
    | some none => findBestIconHelperListFuel fuel icon_list size scale fs ts
  termination_by fuel _ _ _ _ ts => (fuel, ts.length + 1)

end

mutual

theorem findIconHelperFuel_spec (icon : String) (size scale : Int)
    (fs : String → Bool) : ∀ (t : Theme) (fuel : Nat),
    themeDepth t ≤ fuel →
    findIconHelperFuel fuel icon size scale fs t =
      some (find_icon_helper icon size scale fs t)
  | .mk n c inh dirs, 0, h => absurd h (by simp [themeDepth])
  | .mk n c inh dirs, fuel + 1, h => by
    have hinh : themeListDepth inh ≤ fuel := by
      have := h
      simp only [themeDepth] at this
      omega
    cases hl : lookup_icon icon size scale (.mk n c inh dirs) fs with
    | some f => simp [findIconHelperFuel, find_icon_helper, hl]
    | none =>
      simp [findIconHelperFuel, find_icon_helper, hl,
        findIconHelperListFuel_spec icon size scale fs inh fuel hinh]

theorem findIconHelperListFuel_spec (icon : String) (size scale : Int)
    (fs : String → Bool) : ∀ (ts : List Theme) (fuel : Nat),
    themeListDepth ts ≤ fuel →
    findIconHelperListFuel fuel icon size scale fs ts =
      some (findIconHelperList icon size scale fs ts)
  | [], fuel, _ => by simp [findIconHelperListFuel, findIconHelperList]
  | t :: ts, fuel, h => by
    have h1 : themeDepth t ≤ fuel :=
      le_trans (le_max_left _ _) (by simpa [themeListDepth] using h)
    have h2 : themeListDepth ts ≤ fuel :=
      le_trans (le_max_right _ _) (by simpa [themeListDepth] using h)
    rw [show findIconHelperListFuel fuel icon size scale fs (t :: ts) =
        match findIconHelperFuel fuel icon size scale fs t with
        | none => none
        | some (some f) => some (some f)
        | some none => findIconHelperListFuel fuel icon size scale fs ts
        from by simp [findIconHelperListFuel]]
    rw [findIconHelperFuel_spec icon size scale fs t fuel h1]
    cases hf : find_icon_helper icon size scale fs t with
    | some f => simp [findIconHelperList, hf]
    | none =>
      simp [findIconHelperList, hf,
        findIconHelperListFuel_spec icon size scale fs ts fuel h2]

end

mutual

theorem findBestIconHelperFuel_spec (icon_list : List String)
    (size scale : Int) (fs : String → Bool) : ∀ (t : Theme) (fuel : Nat),
    themeDepth t ≤ fuel →
    findBestIconHelperFuel fuel icon_list size scale fs t =
      some (find_best_icon_helper icon_list size scale fs t)
  | .mk n c inh dirs, 0, h => absurd h (by simp [themeDepth])
  | .mk n c inh dirs, fuel + 1, h => by
    have hinh : themeListDepth inh ≤ fuel := by
      have := h
      simp only [themeDepth] at this
      omega
    cases hl : icon_list.findSome?
        (fun icon => lookup_icon icon size scale (.mk n c inh dirs) fs) with
    | some f => simp [findBestIconHelperFuel, find_best_icon_helper, hl]
    | none =>
      simp [findBestIconHelperFuel, find_best_icon_helper, hl,
        findBestIconHelperListFuel_spec icon_list size scale fs inh fuel hinh]

theorem findBestIconHelperListFuel_spec (icon_list : List String)
    (size scale : Int) (fs : String → Bool) : ∀ (ts : List Theme) (fuel : Nat),
    themeListDepth ts ≤ fuel →
    findBestIconHelperListFuel fuel icon_list size scale fs ts =
      some (findBestIconHelperList icon_list size scale fs ts)
  | [], fuel, _ => by simp [findBestIconHelperListFuel, findBestIconHelperList]
  | t :: ts, fuel, h => by
    have h1 : themeDepth t ≤ fuel :=
      le_trans (le_max_left _ _) (by simpa [themeListDepth] using h)
    have h2 : themeListDepth ts ≤ fuel :=
      le_trans (le_max_right _ _) (by simpa [themeListDepth] using h)
    rw [show findBestIconHelperListFuel fuel icon_list size scale fs (t :: ts) =
        match findBestIconHelperFuel fuel icon_list size scale fs t with
        | none => none
        | some (some f) => some (some f)
        | some none => findBestIconHelperListFuel fuel icon_list size scale fs ts
        from by simp [findBestIconHelperListFuel]]
    rw [findBestIconHelperFuel_spec icon_list size scale fs t fuel h1]
    cases hf : find_best_icon_helper icon_list size scale fs t with
    | some f => simp [findBestIconHelperList, hf]
    | none =>
      simp [findBestIconHelperList, hf,
        findBestIconHelperListFuel_spec icon_list size scale fs ts fuel h2]

end

/-- C9 (confirmed): `find_icon_helper` and `find_best_icon_helper`
terminate on every theme value — fuel equal to the (finite) depth of the
owned inheritance tree always suffices, and the step-indexed runs agree
with the directly recursive functions; hence `find_icon` and
`find_best_icon` terminate as well, with no visited set or depth bound
implemented. -/
theorem helpers_terminate_spec (icon : String) (icon_list : List String)
    (size scale : Int) (fs : String → Bool) (t : Theme) (fuel : Nat)
    (h : themeDepth t ≤ fuel) :
    findIconHelperFuel fuel icon size scale fs t =
      some (find_icon_helper icon size scale fs t) ∧
    findBestIconHelperFuel fuel icon_list size scale fs t =
      some (find_best_icon_helper icon_list size scale fs t) :=
  ⟨findIconHelperFuel_spec icon size scale fs t fuel h,
    findBestIconHelperFuel_spec icon_list size scale fs t fuel h⟩

/-- C9, witness: on a concrete two-level theme tree, fuel 2 (its depth)
makes both step-indexed helpers return their directly computed results. -/
theorem helpers_terminate_spec_witness :
    findIconHelperFuel 2 "a" 16 1 (fun _ => false)
        (.mk "T" "" [.mk "P" "" [] []] []) = some none ∧
    findBestIconHelperFuel 2 [ "a", "b"] 16 1 (fun _ => false)
        (.mk "T" "" [.mk "P" "" [] []] []) = some none :=
  helpers_terminate_spec "a" [ "a", "b"] 16 1 (fun _ => false)
    (.mk "T" "" [.mk "P" "" [] []] []) 2 (by decide)

/-! ### Result-path invariant (C10) -/

/-- The themed result-path shape
`{root}/{theme_name}/{directory_name}/{icon_name}.{ext}` with `root` one of
the three base directories and `ext` one of png, svg, xpm. -/
def themedShapePath (icon p : String) : Prop :=
  ∃ root ∈ BASE_DIRECTORIES, ∃ extension ∈ ALLOWED_EXTENSIONS,
    ∃ theme_name dir_name : String,
      p = root ++ "/" ++ theme_name ++ "/" ++ dir_name ++ "/" ++ icon ++ "." ++
        extension

/-- The unthemed result-path shape `{root}/{icon_name}.{ext}`. -/
def unthemedShapePath (icon p : String) : Prop :=
  ∃ root ∈ BASE_DIRECTORIES, ∃ extension ∈ ALLOWED_EXTENSIONS,
    p = root ++ "/" ++ icon ++ "." ++ extension

lemma mem_candidateTriples {theme : Theme}
    {c : ThemeDirectory × String × String} (h : c ∈ candidateTriples theme) :
    c.2.1 ∈ BASE_DIRECTORIES ∧ c.2.2 ∈ ALLOWED_EXTENSIONS := by
  simp only [candidateTriples, List.mem_flatMap, List.mem_map] at h
  obtain ⟨sd, _, dir, hdir, ext, hext, rfl⟩ := h
  exact ⟨hdir, hext⟩

lemma candidatePath_shape {theme : Theme}
    {c : ThemeDirectory × String × String} (h : c ∈ candidateTriples theme)
    (icon : String) : themedShapePath icon (candidatePath icon theme c) := by
  obtain ⟨hdir, hext⟩ := mem_candidateTriples h
  exact ⟨c.2.1, hdir, c.2.2, hext, theme.name, c.1.name, rfl⟩

lemma lookup_icon_shape {icon : String} {size scale : Int} {theme : Theme}
    {fs : String → Bool} {p : String}
    (h : lookup_icon icon size scale theme fs = some p) :
    fs p = true ∧ themedShapePath icon p := by
  unfold lookup_icon at h
  cases hf : (candidateTriples theme).findSome?
      (exactProbe icon size scale theme fs) with
  | some q =>
    rw [hf] at h
    obtain rfl : q = p := by simpa using h
    obtain ⟨c, hc, hcq⟩ := List.exists_of_findSome?_eq_some hf
    rw [exactProbe_eq] at hcq
    by_cases hb : directory_matches_size c.1 size scale &&
        fs (candidatePath icon theme c)
    · rw [if_pos hb] at hcq
      obtain rfl : candidatePath icon theme c = q := by simpa using hcq
      exact ⟨(Bool.and_eq_true _ _ |>.mp hb).2, candidatePath_shape hc icon⟩
    · rw [if_neg hb] at hcq
      exact absurd hcq (by simp)
  | none =>
    rw [hf] at h
    obtain ⟨m, cc, hfold, h1, h2, h3, h4⟩ :=
      closest_foldl icon size scale theme fs (candidateTriples theme)
        I16_MAX ""
    simp only [hfold] at h
    by_cases hm : m < I16_MAX
    · rw [if_pos hm] at h
      obtain rfl : cc = p := by simpa using h
      obtain ⟨x, hxfind, hxpath⟩ := Option.map_eq_some'.mp (h3 hm)
      have hx := List.mem_filter.mp (List.mem_of_find?_eq_some hxfind)
      exact ⟨by rw [← hxpath]; exact hx.2,
        by rw [← hxpath]; exact candidatePath_shape hx.1 icon⟩
    · rw [if_neg hm] at h
      exact absurd h (by simp)

lemma find_icon_helper_shape {icon : String} {size scale : Int}
    {fs : String → Bool} {t : Theme} {p : String}
    (h : find_icon_helper icon size scale fs t = some p) :
    fs p = true ∧ themedShapePath icon p := by
  rw [find_icon_helper_eq_preorder] at h
  obtain ⟨th, _, hth⟩ := List.exists_of_findSome?_eq_some h
  exact lookup_icon_shape hth

lemma find_best_icon_helper_shape {icon_list : List String}
    {size scale : Int} {fs : String → Bool} {t : Theme} {p : String}
    (h : find_best_icon_helper icon_list size scale fs t = some p) :
    fs p = true ∧ ∃ n ∈ icon_list, themedShapePath n p := by
  rw [find_best_icon_helper_eq_preorder] at h
  obtain ⟨th, _, hth⟩ := List.exists_of_findSome?_eq_some h
  obtain ⟨n, hn, hlook⟩ := List.exists_of_findSome?_eq_some hth
  obtain ⟨hfs, hshape⟩ := lookup_icon_shape hlook
  exact ⟨hfs, n, hn, hshape⟩

lemma lookup_fallback_icon_shape {icon : String} {fs : String → Bool}
    {p : String} (h : lookup_fallback_icon icon fs = some p) :
    fs p = true ∧ unthemedShapePath icon p := by
  unfold lookup_fallback_icon at h
  obtain ⟨c, hc, hcq⟩ := List.exists_of_findSome?_eq_some h
  simp only [List.mem_flatMap, List.mem_map] at hc
  obtain ⟨dir, hdir, ext, hext, rfl⟩ := hc
  by_cases hb : fs (dir ++ "/" ++ icon ++ "." ++ ext)
  · simp only [if_pos hb] at hcq
    obtain rfl : dir ++ "/" ++ icon ++ "." ++ ext = p := by simpa using hcq
    exact ⟨hb, dir, hdir, ext, hext, rfl⟩
  · simp only [if_neg hb] at hcq
    exact absurd hcq (by simp)

/-- C10 (confirmed): whenever `find_icon` or `find_best_icon` returns a
path, the filesystem-existence predicate holds for exactly that path, and
the path has the themed shape
`{root}/{theme_name}/{directory_name}/{icon_name}.{ext}` (for `find_icon`,
with the requested name; for `find_best_icon`, with one of the candidate
names) or — for `find_best_icon` only — the unthemed shape
`{root}/{icon_name}.{ext}`, where `root` is one of the three base
directories and `ext` one of png, svg, xpm. -/
theorem found_paths_exist_and_shaped (icon : String) (icon_list : List String)
    (size scale : Int) (theme : Theme) (fs : String → Bool) (p : String) :
    (find_icon icon size scale theme fs = some p →
      fs p = true ∧ themedShapePath icon p) ∧
    (find_best_icon icon_list size scale theme fs = some p →
      fs p = true ∧ ∃ n ∈ icon_list,
        themedShapePath n p ∨ unthemedShapePath n p) := by
  constructor
  · intro h
    simp only [find_icon] at h
    cases h1 : find_icon_helper icon size scale fs theme with
    | some q =>
      rw [h1] at h
      obtain rfl : q = p := by simpa using h
      exact find_icon_helper_shape h1
    | none =>
      rw [h1] at h
      cases h2 : find_icon_helper icon size scale fs
          (.mk "hicolor" "Default icon theme" [] []) with
      | some q =>
        rw [h2] at h
        obtain rfl : q = p := by simpa using h
        exact find_icon_helper_shape h2
      | none =>
        rw [h2] at h
        exact absurd h (by simp)
  · intro h
    simp only [find_best_icon] at h
    cases h1 : find_best_icon_helper icon_list size scale fs theme with
    | some q =>
      rw [h1] at h
      obtain rfl : q = p := by simpa using h
      obtain ⟨hfs, n, hn, hsh⟩ := find_best_icon_helper_shape h1
      exact ⟨hfs, n, hn, Or.inl hsh⟩
    | none =>
      rw [h1] at h
      cases h2 : find_best_icon_helper icon_list size scale fs
          (.mk "hicolor" "Default icon" [] []) with
      | some q =>
        rw [h2] at h
        obtain rfl : q = p := by simpa using h
        obtain ⟨hfs, n, hn, hsh⟩ := find_best_icon_helper_shape h2
        exact ⟨hfs, n, hn, Or.inl hsh⟩
      | none =>
        rw [h2] at h
        obtain ⟨n, hn, hl⟩ := List.exists_of_findSome?_eq_some h
        obtain ⟨hfs, hsh⟩ := lookup_fallback_icon_shape hl
        exact ⟨hfs, n, hn, Or.inr hsh⟩

/-- Concrete theme and filesystem exercising both branches of C10. -/
def witnessTheme : Theme :=
  .mk "T" "" [] [⟨"d", 16, none, none, .Fixed, none, none, none⟩]

def witnessFs : String → Bool := fun p =>
  p == "~/.icons/T/d/foo.png" || p == "~/.icons/bar.png"

/-- C10, witness: `find_icon` returns the themed path to `foo` (the
filesystem predicate holds for it and it has themed shape), and
`find_best_icon` for `bar` falls through to the unthemed `bar.png` (the
predicate holds for it and it has themed-or-unthemed shape). -/
theorem found_paths_exist_and_shaped_witness :
    (witnessFs "~/.icons/T/d/foo.png" = true ∧
      themedShapePath "foo" "~/.icons/T/d/foo.png") ∧
    (witnessFs "~/.icons/bar.png" = true ∧ ∃ n ∈ [ "bar"],
      themedShapePath n "~/.icons/bar.png" ∨
        unthemedShapePath n "~/.icons/bar.png") :=
  ⟨(found_paths_exist_and_shaped "foo" [ "bar"] 16 1 witnessTheme witnessFs
      "~/.icons/T/d/foo.png").1 rfl,
    (found_paths_exist_and_shaped "foo" [ "bar"] 16 1 witnessTheme witnessFs
      "~/.icons/bar.png").2 rfl⟩

end IconFinder
